import Mathlib

/-!
Shallow embedding of `src/server.js`, an Express product-catalog API.

The in-memory store is a `List Product`; each route handler becomes a pure
Lean function from store (and request data) to a result and a new store.
JavaScript numbers are modelled as `ℚ`, request-body JSON values as `JVal`,
and absent query parameters / headers as `Option`.
-/

/-- A JSON value as it can appear in a request-body field. -/
inductive JVal where
  | vStr (s : String)
  | vNum (q : ℚ)
  | vBool (b : Bool)
  | vNull
deriving DecidableEq, Repr

/-- JavaScript truthiness restricted to the values of `JVal`;
`none` stands for `undefined` (a destructured missing field). -/
def jsFalsy : Option JVal → Bool
  | none => true
  | some (.vStr s) => s == ""
  | some (.vNum q) => q == 0
  | some (.vBool b) => !b
  | some .vNull => true

/-- The request body of POST/PUT as destructured by the handlers:
each of the five fields is present (with some JSON value) or absent. -/
structure Payload where
  name : Option JVal
  description : Option JVal
  price : Option JVal
  category : Option JVal
  inStock : Option JVal
deriving DecidableEq, Repr

/-- A product record as stored in the `products` array. -/
structure Product where
  id : String
  name : String
  description : String
  price : ℚ
  category : String
  inStock : Bool
deriving DecidableEq, Repr

/-- The seed `products` array from the top of `server.js`. -/
def seedProducts : List Product :=
  [ { id := "1", name := "Laptop",
      description := "High-performance laptop with 16GB RAM",
      price := 1200, category := "electronics", inStock := true },
    { id := "2", name := "Smartphone",
      description := "Latest model with 128GB storage",
      price := 800, category := "electronics", inStock := true },
    { id := "3", name := "Coffee Maker",
      description := "Programmable coffee maker with timer",
      price := 50, category := "kitchen", inStock := false },
    { id := "4", name := "Wireless Headphones",
      description := "Noise-cancelling wireless headphones",
      price := 200, category := "electronics", inStock := true },
    { id := "5", name := "Desk Chair",
      description := "Ergonomic office chair with lumbar support",
      price := 300, category := "furniture", inStock := true } ]

/-- The error taxonomy of `server.js` (custom Error subclasses). -/
inductive ApiErr where
  | notFound (msg : String)
  | validation (msg : String)
  | auth (msg : String)
deriving DecidableEq, Repr

/-- The HTTP status the global `errorHandler` assigns to each error kind. -/
def ApiErr.status : ApiErr → Nat
  | .notFound _ => 404
  | .validation _ => 400
  | .auth _ => 401

/-- The fixed shared secret accepted by `authMiddleware`. -/
def apiSecret : String := "demo-api-key-123"

/-- `authMiddleware`: `none` means the check passes (call `next()` with no
error); `some e` means it forwards an `AuthenticationError`. -/
def authMiddleware (apiKey : Option String) : Option ApiErr :=
  if jsFalsy (apiKey.map .vStr) || !(apiKey == some apiSecret) then
    some (.auth "Invalid or missing API key. Please provide a valid x-api-key header.")
  else
    none

/-- JS `s.trim()`: strip leading and trailing whitespace (modelled on the
character list so that it evaluates by kernel reduction). -/
def jsTrim (s : String) : String :=
  ⟨((s.data.dropWhile Char.isWhitespace).reverse.dropWhile Char.isWhitespace).reverse⟩

/-- JS `s.toLowerCase()` (ASCII case mapping). -/
def jsToLower (s : String) : String :=
  ⟨s.data.map Char.toLower⟩

/-- The test `!x || typeof x !== "string" || x.trim().length === 0` that
`validateProduct` applies to name, description and category. -/
def failsNonEmptyString (v : Option JVal) : Bool :=
  jsFalsy v ||
    !(match v with | some (.vStr _) => true | _ => false) ||
    (match v with | some (.vStr s) => (jsTrim s).length == 0 | _ => false)

/-- The test `typeof price !== "number" || price < 0` of `validateProduct`. -/
def failsPrice (v : Option JVal) : Bool :=
  !(match v with | some (.vNum _) => true | _ => false) ||
    (match v with | some (.vNum q) => decide (q < 0) | _ => false)

/-- The test `typeof inStock !== "boolean"` of `validateProduct`. -/
def failsBoolean (v : Option JVal) : Bool :=
  !(match v with | some (.vBool _) => true | _ => false)

/-- `validateProduct`: returns the first `ValidationError` raised, or `none`
when every field rule passes. -/
def validateProduct (b : Payload) : Option ApiErr :=
  if failsNonEmptyString b.name then
    some (.validation "Name is required and must be a non-empty string")
  else if failsNonEmptyString b.description then
    some (.validation "Description is required and must be a non-empty string")
  else if failsPrice b.price then
    some (.validation "Price is required and must be a positive number")
  else if failsNonEmptyString b.category then
    some (.validation "Category is required and must be a non-empty string")
  else if failsBoolean b.inStock then
    some (.validation "inStock is required and must be a boolean")
  else
    none

/-- Extract a string from a body field (validation guarantees the shape). -/
def JVal.asString : Option JVal → String
  | some (.vStr s) => s
  | _ => ""

/-- Extract a number from a body field (validation guarantees the shape). -/
def JVal.asNum : Option JVal → ℚ
  | some (.vNum q) => q
  | _ => 0

/-- Extract a boolean from a body field (validation guarantees the shape). -/
def JVal.asBool : Option JVal → Bool
  | some (.vBool b) => b
  | _ => false

/-- Substring test on character lists, the semantics of JS `includes`. -/
def listContainsSub (needle : List Char) : List Char → Bool
  | [] => needle.isEmpty
  | c :: t => needle.isPrefixOf (c :: t) || listContainsSub needle t

/-- JS `hay.includes(sub)`. -/
def strIncludes (hay sub : String) : Bool :=
  listContainsSub sub.data hay.data

/-- JS `Array.prototype.slice(start, stop)` with its negative-index
semantics: a negative bound counts from the end of the array. -/
def jsSlice {α : Type} (l : List α) (start stop : Int) : List α :=
  let len : Int := l.length
  let s : Int := if start < 0 then max (len + start) 0 else min start len
  let e : Int := if stop < 0 then max (len + stop) 0 else min stop len
  (l.drop s.toNat).take (e - s).toNat

/-- JS `parseInt(x) || d`: `none` models `NaN` (absent or unparsable
parameter), and `0` is falsy so it also falls back to the default. -/
def jsOrDefault (v : Option Int) (d : Int) : Int :=
  match v with
  | none => d
  | some n => if n == 0 then d else n

/-- The category filter of GET /api/products: applied only when the query
parameter is present and truthy (non-empty); case-insensitive exact match. -/
def filterByCategory (store : List Product) (category? : Option String) : List Product :=
  match category? with
  | some c => if c == "" then store
              else store.filter (fun p => jsToLower p.category == jsToLower c)
  | none => store

/-- The inStock filter of GET /api/products: applied whenever the query
parameter is present (`!== undefined`); compares against `s === "true"`. -/
def filterByInStock (store : List Product) (inStock? : Option String) : List Product :=
  match inStock? with
  | some s => store.filter (fun p => p.inStock == (s == "true"))
  | none => store

/-- The `pagination` object in the GET /api/products response. -/
structure Pagination where
  currentPage : Int
  totalPages : Int
  totalProducts : Nat
  hasNextPage : Bool
  hasPrevPage : Bool
deriving DecidableEq, Repr

/-- The GET /api/products response body. -/
structure GetAllResp where
  products : List Product
  pagination : Pagination
deriving DecidableEq, Repr

/-- Handler for GET /api/products (no auth middleware in its chain; the
`apiKey` header is part of the request but never consulted). -/
def getProducts (store : List Product) (apiKey : Option String)
    (category? inStock? : Option String) (page? limit? : Option Int) : GetAllResp :=
  let filtered := filterByInStock (filterByCategory store category?) inStock?
  let page := jsOrDefault page? 1
  let limit := jsOrDefault limit? 10
  let startIndex := (page - 1) * limit
  let endIndex := page * limit
  { products := jsSlice filtered startIndex endIndex,
    pagination :=
      { currentPage := page,
        totalPages := Rat.ceil ((filtered.length : ℚ) / (limit : ℚ)),
        totalProducts := filtered.length,
        hasNextPage := decide (endIndex < (filtered.length : Int)),
        hasPrevPage := decide (page > 1) } }

/-- The GET /api/products/search response body. -/
structure SearchResp where
  query : String
  results : List Product
  count : Nat
deriving DecidableEq, Repr

/-- Handler for GET /api/products/search (no auth middleware; the falsy
check `!query` rejects both an absent and an empty `q`). -/
def searchProducts (store : List Product) (apiKey : Option String)
    (q? : Option String) : Except ApiErr SearchResp :=
  match q? with
  | none => .error (.validation "Search query parameter \"q\" is required")
  | some q =>
    if q == "" then .error (.validation "Search query parameter \"q\" is required")
    else
      let searchResults := store.filter (fun p =>
        strIncludes (jsToLower p.name) (jsToLower q) ||
        strIncludes (jsToLower p.description) (jsToLower q))
      .ok { query := q, results := searchResults, count := searchResults.length }

/-- JS `Math.min(...prices)` on a non-empty argument list (the handler only
calls it when the store is non-empty; `0` on `[]` is never reached). -/
def jsMathMin : List ℚ → ℚ
  | [] => 0
  | h :: t => t.foldl min h

/-- JS `Math.max(...prices)` on a non-empty argument list. -/
def jsMathMax : List ℚ → ℚ
  | [] => 0
  | h :: t => t.foldl max h

/-- One step of the category-count accumulation:
`stats.categories[c] = (stats.categories[c] || 0) + 1` on a JS object,
modelled as an insertion-ordered association list (update the value in
place when the key exists, append a fresh key at the end otherwise). -/
def bumpCategory (m : List (String × Nat)) (c : String) : List (String × Nat) :=
  match m with
  | [] => [(c, 1)]
  | kv :: rest =>
    if kv.1 == c then (kv.1, kv.2 + 1) :: rest else kv :: bumpCategory rest c

/-- The `categories` object of the stats response, built by iterating over
the store (a JS object modelled as an insertion-ordered association list). -/
def categoriesOf (store : List Product) : List (String × Nat) :=
  store.foldl (fun m p => bumpCategory m p.category) []

/-- The `priceRange` object of the stats response. -/
structure PriceRange where
  min : ℚ
  max : ℚ
deriving DecidableEq, Repr

/-- The GET /api/products/stats response body. -/
structure StatsResp where
  totalProducts : Nat
  inStock : Nat
  outOfStock : Nat
  categories : List (String × Nat)
  averagePrice : ℚ
  priceRange : PriceRange
deriving DecidableEq, Repr

/-- Handler for GET /api/products/stats (no auth middleware). -/
def statsOf (store : List Product) (apiKey : Option String) : StatsResp :=
  let base : StatsResp :=
    { totalProducts := store.length,
      inStock := (store.filter (fun p => p.inStock)).length,
      outOfStock := (store.filter (fun p => !p.inStock)).length,
      categories := categoriesOf store,
      averagePrice := 0,
      priceRange := { min := 0, max := 0 } }
  if store.length > 0 then
    let prices := store.map (fun p => p.price)
    { base with
      averagePrice := (prices.foldl (fun sum price => sum + price) 0) / (prices.length : ℚ),
      priceRange := { min := jsMathMin prices, max := jsMathMax prices } }
  else
    base

/-- Handler for GET /api/products/:id (no auth middleware). -/
def getProductById (store : List Product) (apiKey : Option String)
    (id : String) : Except ApiErr Product :=
  match store.find? (fun p => p.id == id) with
  | none => .error (.notFound ("Product with ID " ++ id ++ " not found"))
  | some p => .ok p

/-- Handler for POST /api/products, with its middleware chain
(auth, then validation). `newId` models the fresh `uuidv4()` value.
Returns the response and the store after the request. -/
def postProducts (store : List Product) (apiKey : Option String)
    (body : Payload) (newId : String) : Except ApiErr Product × List Product :=
  match authMiddleware apiKey with
  | some e => (.error e, store)
  | none =>
  match validateProduct body with
  | some e => (.error e, store)
  | none =>
    let newProduct : Product :=
      { id := newId,
        name := jsTrim (JVal.asString body.name),
        description := jsTrim (JVal.asString body.description),
        price := JVal.asNum body.price,
        category := jsTrim (JVal.asString body.category),
        inStock := JVal.asBool body.inStock }
    (.ok newProduct, store ++ [newProduct])

/-- Handler for PUT /api/products/:id, with its middleware chain
(auth, then validation). Mirrors `findIndex` + in-place assignment with
object spread (the `id` of the old record survives the spread). -/
def putProduct (store : List Product) (apiKey : Option String)
    (id : String) (body : Payload) : Except ApiErr Product × List Product :=
  match authMiddleware apiKey with
  | some e => (.error e, store)
  | none =>
  match validateProduct body with
  | some e => (.error e, store)
  | none =>
  match store.findIdx? (fun p => p.id == id) with
  | none => (.error (.notFound ("Product with ID " ++ id ++ " not found")), store)
  | some i =>
    match store[i]? with
    | none => (.error (.notFound ("Product with ID " ++ id ++ " not found")), store)
    | some old =>
      let updated : Product :=
        { old with
          name := jsTrim (JVal.asString body.name),
          description := jsTrim (JVal.asString body.description),
          price := JVal.asNum body.price,
          category := jsTrim (JVal.asString body.category),
          inStock := JVal.asBool body.inStock }
      (.ok updated, store.set i updated)

/-- Handler for DELETE /api/products/:id, with its auth middleware.
Mirrors `findIndex` + `splice(index, 1)`. -/
def deleteProduct (store : List Product) (apiKey : Option String)
    (id : String) : Except ApiErr Product × List Product :=
  match authMiddleware apiKey with
  | some e => (.error e, store)
  | none =>
  match store.findIdx? (fun p => p.id == id) with
  | none => (.error (.notFound ("Product with ID " ++ id ++ " not found")), store)
  | some i =>
    match store[i]? with
    | none => (.error (.notFound ("Product with ID " ++ id ++ " not found")), store)
    | some deleted => (.ok deleted, store.eraseIdx i)

/-- A mutating request, for reasoning about sequences of operations. -/
inductive Op where
  | create (apiKey : Option String) (body : Payload) (newId : String)
  | update (apiKey : Option String) (id : String) (body : Payload)
  | delete (apiKey : Option String) (id : String)

/-- The store after one mutating request. -/
def applyOp (store : List Product) : Op → List Product
  | .create k b nid => (postProducts store k b nid).2
  | .update k i b => (putProduct store k i b).2
  | .delete k i => (deleteProduct store k i).2

/-- The store after a sequence of mutating requests. -/
def runOps (store : List Product) : List Op → List Product
  | [] => store
  | op :: rest => runOps (applyOp store op) rest

/-- A create's generated id is fresh for the store it runs against
(the guarantee `uuidv4()` is relied upon for). -/
def freshFor (store : List Product) : Op → Bool
  | .create _ _ nid => !((store.map Product.id).contains nid)
  | _ => true

/-- Every create in the sequence generates an id fresh at the moment
it executes. -/
def freshAlong (store : List Product) : List Op → Bool
  | [] => true
  | op :: rest => freshFor store op && freshAlong (applyOp store op) rest

/-- The spec's pagination window: the elements of `l` whose index lies in
the half-open interval `[a, b)` (written for `0 ≤ a`; an interval that
contains no valid index yields the empty list). -/
def sliceSpec {α : Type} (l : List α) (a b : Int) : List α :=
  (l.drop a.toNat).take (b - a).toNat

/-- The spec's rule for name / description / category: the field is present,
is a string, and is non-empty once trimmed. -/
def passNonEmptyString (v : Option JVal) : Bool :=
  match v with
  | some (.vStr s) => !(jsTrim s == "")
  | _ => false

/-- The spec's rule for price: present, numeric, and `≥ 0`. -/
def passPrice (v : Option JVal) : Bool :=
  match v with
  | some (.vNum q) => decide (0 ≤ q)
  | _ => false

/-- The spec's rule for inStock: present and boolean. -/
def passBoolean (v : Option JVal) : Bool :=
  match v with
  | some (.vBool _) => true
  | _ => false

/-! ## Helper lemmas -/

theorem authMiddleware_none_iff (k : Option String) :
    authMiddleware k = none ↔ k = some apiSecret := by
  cases k with
  | none => simp [authMiddleware, jsFalsy]
  | some s =>
    constructor
    · intro h
      by_contra hne
      have hb : (some s == some apiSecret) = false := by
        simp only [beq_eq_false_iff_ne, ne_eq]
        exact fun hc => hne (by simp [hc])
      simp [authMiddleware, hb] at h
    · intro h
      have hs : s = apiSecret := by injection h
      subst hs
      simp [authMiddleware, jsFalsy, apiSecret]

theorem authMiddleware_of_ne {k : Option String} (h : k ≠ some apiSecret) :
    authMiddleware k =
      some (.auth "Invalid or missing API key. Please provide a valid x-api-key header.") := by
  have hb : (k == some apiSecret) = false := by
    simp only [beq_eq_false_iff_ne, ne_eq]
    exact h
  simp [authMiddleware, hb]

theorem authMiddleware_secret : authMiddleware (some apiSecret) = none :=
  (authMiddleware_none_iff _).mpr rfl

theorem postProducts_auth_fail {k : Option String} (h : k ≠ some apiSecret)
    (store : List Product) (body : Payload) (nid : String) :
    postProducts store k body nid =
      (.error (.auth "Invalid or missing API key. Please provide a valid x-api-key header."), store) := by
  simp [postProducts, authMiddleware_of_ne h]

theorem putProduct_auth_fail {k : Option String} (h : k ≠ some apiSecret)
    (store : List Product) (id : String) (body : Payload) :
    putProduct store k id body =
      (.error (.auth "Invalid or missing API key. Please provide a valid x-api-key header."), store) := by
  simp [putProduct, authMiddleware_of_ne h]

theorem deleteProduct_auth_fail {k : Option String} (h : k ≠ some apiSecret)
    (store : List Product) (id : String) :
    deleteProduct store k id =
      (.error (.auth "Invalid or missing API key. Please provide a valid x-api-key header."), store) := by
  simp [deleteProduct, authMiddleware_of_ne h]

/-- C1: the auth check succeeds iff the `x-api-key` header equals the fixed
shared secret; every mutating route (POST, PUT, DELETE) under a wrong or
missing key answers with a 401 authentication error and leaves the store
unchanged; the non-mutating routes (GET all, GET by id, search, stats)
never consult the key. -/
theorem C1_auth_gate :
    (∀ k : Option String, authMiddleware k = none ↔ k = some apiSecret) ∧
    (∀ (store : List Product) (k : Option String) (body : Payload) (nid : String),
      k ≠ some apiSecret →
      ∃ m, postProducts store k body nid = (.error (.auth m), store) ∧
        (ApiErr.auth m).status = 401) ∧
    (∀ (store : List Product) (k : Option String) (id : String) (body : Payload),
      k ≠ some apiSecret →
      ∃ m, putProduct store k id body = (.error (.auth m), store) ∧
        (ApiErr.auth m).status = 401) ∧
    (∀ (store : List Product) (k : Option String) (id : String),
      k ≠ some apiSecret →
      ∃ m, deleteProduct store k id = (.error (.auth m), store) ∧
        (ApiErr.auth m).status = 401) ∧
    (∀ (store : List Product) (k k' : Option String) (c i : Option String)
        (pg lim : Option Int),
      getProducts store k c i pg lim = getProducts store k' c i pg lim) ∧
    (∀ (store : List Product) (k k' : Option String) (q : Option String),
      searchProducts store k q = searchProducts store k' q) ∧
    (∀ (store : List Product) (k k' : Option String),
      statsOf store k = statsOf store k') ∧
    (∀ (store : List Product) (k k' : Option String) (id : String),
      getProductById store k id = getProductById store k' id) := by
  refine ⟨authMiddleware_none_iff, ?_, ?_, ?_, ?_, ?_, ?_, ?_⟩
  · exact fun store k body nid h => ⟨_, postProducts_auth_fail h store body nid, rfl⟩
  · exact fun store k id body h => ⟨_, putProduct_auth_fail h store id body, rfl⟩
  · exact fun store k id h => ⟨_, deleteProduct_auth_fail h store id, rfl⟩
  · exact fun _ _ _ _ _ _ _ => rfl
  · exact fun _ _ _ _ => rfl
  · exact fun _ _ _ => rfl
  · exact fun _ _ _ _ => rfl

/-- Witness for C1 at a concrete wrong key on the seed store. -/
theorem C1_auth_gate_witness :
    ∃ m, postProducts seedProducts (some "wrong-key")
        { name := none, description := none, price := none,
          category := none, inStock := none } "id-x" =
        (.error (.auth m), seedProducts) ∧ (ApiErr.auth m).status = 401 :=
  C1_auth_gate.2.1 seedProducts (some "wrong-key") _ "id-x" (by decide)

theorem jsSlice_of_nonneg {α : Type} (l : List α) {a b : Int}
    (ha : 0 ≤ a) (hb : 0 ≤ b) : jsSlice l a b = sliceSpec l a b := by
  have hna : ¬ a < 0 := by omega
  have hnb : ¬ b < 0 := by omega
  simp only [jsSlice, sliceSpec, hna, hnb, if_false]
  by_cases hal : a ≤ (l.length : Int)
  · rw [min_eq_left hal]
    by_cases hbl : b ≤ (l.length : Int)
    · rw [min_eq_left hbl]
    · rw [min_eq_right (le_of_not_le hbl)]
      have h1 : (l.drop a.toNat).length = l.length - a.toNat := List.length_drop _ _
      rw [List.take_of_length_le (by rw [h1]; omega),
        List.take_of_length_le (by rw [h1]; omega)]
  · push_neg at hal
    rw [min_eq_right (le_of_lt hal)]
    have h4 : l.drop ((l.length : Int)).toNat = [] := by
      simp
    have h5 : l.drop a.toNat = [] := List.drop_eq_nil_of_le (by omega)
    rw [h4, h5, List.take_nil, List.take_nil]

theorem rat_ceil_eq_ceil (q : ℚ) : Rat.ceil q = ⌈q⌉ := by
  have hfloor : ⌊q⌋ = q.num / (q.den : ℤ) := Rat.floor_def
  by_cases hden : q.den = 1
  · have hq : ((q.num : ℚ)) = q := by
      conv_rhs => rw [← Rat.num_div_den q]
      rw [hden]
      norm_num
    have hc : Rat.ceil q = q.num := by simp [Rat.ceil, hden]
    rw [hc, ← hq]
    exact (Int.ceil_intCast q.num).symm
  · have hceil : Rat.ceil q = ⌊q⌋ + 1 := by
      rw [hfloor]
      simp [Rat.ceil, hden]
    have hne : q ≠ ((⌊q⌋ : ℤ) : ℚ) := by
      intro h
      exact hden (by rw [h]; exact Rat.den_intCast _)
    have hlt : ((⌊q⌋ : ℤ) : ℚ) < q := lt_of_le_of_ne (Int.floor_le q) (Ne.symm hne)
    rw [hceil]
    symm
    rw [Int.ceil_eq_iff]
    constructor
    · push_cast
      linarith
    · push_cast
      linarith [Int.lt_floor_add_one q]

/-- C2 fails as stated: with a parsed `limit = -1` (page absent, defaulting
to 1) on the seed store, the handler returns the non-empty JS negative-index
slice `slice(0, -1)` (the first four products), while the spec's window
`[(1-1)*(-1), 1*(-1)) = [0, -1)` contains no valid index and is empty. -/
theorem C2_counterexample :
    (getProducts seedProducts none none none none (some (-1))).products ≠
      sliceSpec (filterByInStock (filterByCategory seedProducts none) none)
        ((jsOrDefault none 1 - 1) * jsOrDefault (some (-1)) 10)
        (jsOrDefault none 1 * jsOrDefault (some (-1)) 10) := by
  decide

/-- C2 (amended): whenever the effective `page` (default 1) and `limit`
(default 10) are at least 1, GET /api/products returns the window
`[(page-1)*limit, page*limit)` of the filtered list, `totalPages` is
`ceil(filteredCount / limit)`, `hasNextPage` holds iff
`page*limit < filteredCount`, and `hasPrevPage` holds iff `page > 1`
(for a negative parsed page or limit the handler instead inherits JS
negative-index slice semantics). -/
theorem C2_pagination (store : List Product) (category? inStock? : Option String)
    (page? limit? : Option Int)
    (hp : 1 ≤ jsOrDefault page? 1) (hl : 1 ≤ jsOrDefault limit? 10) :
    (getProducts store none category? inStock? page? limit?).products =
      sliceSpec (filterByInStock (filterByCategory store category?) inStock?)
        ((jsOrDefault page? 1 - 1) * jsOrDefault limit? 10)
        (jsOrDefault page? 1 * jsOrDefault limit? 10) ∧
    (getProducts store none category? inStock? page? limit?).pagination.currentPage =
      jsOrDefault page? 1 ∧
    (getProducts store none category? inStock? page? limit?).pagination.totalPages =
      ⌈((filterByInStock (filterByCategory store category?) inStock?).length : ℚ) /
        ((jsOrDefault limit? 10 : ℤ) : ℚ)⌉ ∧
    ((getProducts store none category? inStock? page? limit?).pagination.hasNextPage = true ↔
      jsOrDefault page? 1 * jsOrDefault limit? 10 <
        ((filterByInStock (filterByCategory store category?) inStock?).length : Int)) ∧
    ((getProducts store none category? inStock? page? limit?).pagination.hasPrevPage = true ↔
      1 < jsOrDefault page? 1) := by
  have h1 : (0 : ℤ) ≤ (jsOrDefault page? 1 - 1) * jsOrDefault limit? 10 :=
    mul_nonneg (by omega) (by omega)
  have h2 : (0 : ℤ) ≤ jsOrDefault page? 1 * jsOrDefault limit? 10 :=
    mul_nonneg (by omega) (by omega)
  refine ⟨?_, rfl, ?_, ?_, ?_⟩
  · exact jsSlice_of_nonneg _ h1 h2
  · exact rat_ceil_eq_ceil _
  · simp [getProducts]
  · simp [getProducts]

/-- Witness for C2 at the spec's own example: `limit=2`, `page=2` on the
5-item seed store yields the third and fourth products, with a next page. -/
theorem C2_pagination_witness :
    ((getProducts seedProducts none none none (some 2) (some 2)).products =
      sliceSpec (filterByInStock (filterByCategory seedProducts none) none)
        ((jsOrDefault (some 2) 1 - 1) * jsOrDefault (some 2) 10)
        (jsOrDefault (some 2) 1 * jsOrDefault (some 2) 10)) ∧
    (getProducts seedProducts none none none (some 2) (some 2)).products =
      (seedProducts.drop 2).take 2 ∧
    (getProducts seedProducts none none none (some 2) (some 2)).pagination.hasNextPage = true :=
  ⟨(C2_pagination seedProducts none none (some 2) (some 2) (by decide) (by decide)).1,
   by decide, by decide⟩

/-- C3: an authenticated PUT with a valid body against an id that no product
in the store carries answers 404 Not Found and leaves the store exactly
unchanged. -/
theorem C3_update_missing (store : List Product) (id : String) (body : Payload)
    (hvalid : validateProduct body = none)
    (hid : ∀ p ∈ store, p.id ≠ id) :
    putProduct store (some apiSecret) id body =
      (.error (.notFound ("Product with ID " ++ id ++ " not found")), store) ∧
    (ApiErr.notFound ("Product with ID " ++ id ++ " not found")).status = 404 := by
  have hfind : store.findIdx? (fun p => p.id == id) = none := by
    rw [List.findIdx?_eq_none_iff]
    intro p hp
    simp [hid p hp]
  refine ⟨?_, rfl⟩
  simp [putProduct, authMiddleware_secret, hvalid, hfind]

/-- Witness for C3: updating id "999" (absent from the seed store) with a
valid body. -/
theorem C3_update_missing_witness :
    putProduct seedProducts (some apiSecret) "999"
        { name := some (.vStr "Monitor"), description := some (.vStr "4K display"),
          price := some (.vNum 400), category := some (.vStr "electronics"),
          inStock := some (.vBool true) } =
      (.error (.notFound ("Product with ID " ++ "999" ++ " not found")), seedProducts) ∧
    (ApiErr.notFound ("Product with ID " ++ "999" ++ " not found")).status = 404 :=
  C3_update_missing seedProducts "999" _ (by decide) (by decide)

theorem jsSlice_sublist {α : Type} (l : List α) (a b : Int) :
    (jsSlice l a b).Sublist l :=
  (List.take_sublist _ _).trans (List.drop_sublist _ _)

/-- C4: with a (non-empty) category query and an inStock query, every product
returned by GET /api/products comes from the store, matches the category
case-insensitively, and matches the parsed inStock flag; the doubly filtered
list is a subset of what either filter alone produces. -/
theorem C4_filters (store : List Product) (c s : String) (hc : c ≠ "")
    (k : Option String) (pg lim : Option Int) :
    (∀ p ∈ (getProducts store k (some c) (some s) pg lim).products,
      p ∈ store ∧ jsToLower p.category = jsToLower c ∧ p.inStock = (s == "true")) ∧
    filterByInStock (filterByCategory store (some c)) (some s) ⊆
      filterByCategory store (some c) ∧
    filterByInStock (filterByCategory store (some c)) (some s) ⊆
      filterByInStock store (some s) := by
  have hcb : (c == "") = false := beq_eq_false_iff_ne.mpr hc
  have hcat : filterByCategory store (some c) =
      store.filter (fun p => jsToLower p.category == jsToLower c) := by
    simp [filterByCategory, hcb]
  refine ⟨?_, ?_, ?_⟩
  · intro p hp
    have hmem : p ∈ filterByInStock (filterByCategory store (some c)) (some s) :=
      (jsSlice_sublist _ _ _).subset hp
    rw [filterByInStock, hcat] at hmem
    rw [List.mem_filter] at hmem
    obtain ⟨hmem1, hstock⟩ := hmem
    rw [List.mem_filter] at hmem1
    obtain ⟨hstore, hcatm⟩ := hmem1
    exact ⟨hstore, by simpa using hcatm, by simpa using hstock⟩
  · intro p hp
    rw [filterByInStock] at hp
    exact List.mem_of_mem_filter hp
  · intro p hp
    rw [filterByInStock, hcat] at hp
    rw [List.mem_filter] at hp
    rw [filterByInStock, List.mem_filter]
    exact ⟨List.mem_of_mem_filter hp.1, hp.2⟩

/-- Witness for C4: category "ELECTRONICS" (note the case) plus
inStock "true" on the seed store. -/
theorem C4_filters_witness :
    (∀ p ∈ (getProducts seedProducts none (some "ELECTRONICS") (some "true") none none).products,
      p ∈ seedProducts ∧ jsToLower p.category = jsToLower "ELECTRONICS" ∧
      p.inStock = ("true" == "true")) ∧
    filterByInStock (filterByCategory seedProducts (some "ELECTRONICS")) (some "true") ⊆
      filterByCategory seedProducts (some "ELECTRONICS") ∧
    filterByInStock (filterByCategory seedProducts (some "ELECTRONICS")) (some "true") ⊆
      filterByInStock seedProducts (some "true") :=
  C4_filters seedProducts "ELECTRONICS" "true" (by decide) none none none

theorem string_length_eq_zero_iff (t : String) : t.length = 0 ↔ t = "" := by
  cases t with
  | mk l =>
    constructor
    · intro h
      have hl : l = [] := List.length_eq_zero.mp h
      rw [hl]
    · intro h
      rw [h]
      rfl

theorem failsNonEmptyString_eq (v : Option JVal) :
    failsNonEmptyString v = !(passNonEmptyString v) := by
  cases v with
  | none => rfl
  | some jv =>
    cases jv with
    | vStr s =>
      simp only [failsNonEmptyString, passNonEmptyString, jsFalsy, Bool.not_not]
      rw [Bool.eq_iff_iff]
      simp only [Bool.or_eq_true, Bool.not_true, Bool.false_eq_true, or_false, false_or,
        beq_iff_eq]
      constructor
      · rintro (h | h)
        · rw [h]; rfl
        · exact (string_length_eq_zero_iff _).mp h
      · intro h
        right
        exact (string_length_eq_zero_iff _).mpr h
    | vNum q => simp [failsNonEmptyString, passNonEmptyString, jsFalsy]
    | vBool b => simp [failsNonEmptyString, passNonEmptyString, jsFalsy]
    | vNull => rfl

theorem failsPrice_eq (v : Option JVal) : failsPrice v = !(passPrice v) := by
  cases v with
  | none => rfl
  | some jv =>
    cases jv with
    | vStr s => rfl
    | vNum q =>
      simp only [failsPrice, passPrice]
      rw [Bool.eq_iff_iff]
      simp [not_le]
    | vBool b => rfl
    | vNull => rfl

theorem failsBoolean_eq (v : Option JVal) : failsBoolean v = !(passBoolean v) := by
  cases v with
  | none => rfl
  | some jv => cases jv <;> rfl

/-- C5: the validator checks name, description, price, category, inStock in
that fixed order, accepts exactly when all five rules pass, and otherwise
reports only the first failing rule with its human-readable message. -/
theorem C5_validator (b : Payload) :
    (validateProduct b = none ↔
      (passNonEmptyString b.name ∧ passNonEmptyString b.description ∧
       passPrice b.price ∧ passNonEmptyString b.category ∧ passBoolean b.inStock)) ∧
    (¬ passNonEmptyString b.name →
      validateProduct b =
        some (.validation "Name is required and must be a non-empty string")) ∧
    (passNonEmptyString b.name → ¬ passNonEmptyString b.description →
      validateProduct b =
        some (.validation "Description is required and must be a non-empty string")) ∧
    (passNonEmptyString b.name → passNonEmptyString b.description → ¬ passPrice b.price →
      validateProduct b =
        some (.validation "Price is required and must be a positive number")) ∧
    (passNonEmptyString b.name → passNonEmptyString b.description → passPrice b.price →
      ¬ passNonEmptyString b.category →
      validateProduct b =
        some (.validation "Category is required and must be a non-empty string")) ∧
    (passNonEmptyString b.name → passNonEmptyString b.description → passPrice b.price →
      passNonEmptyString b.category → ¬ passBoolean b.inStock →
      validateProduct b =
        some (.validation "inStock is required and must be a boolean")) := by
  simp only [validateProduct, failsNonEmptyString_eq, failsPrice_eq, failsBoolean_eq]
  cases hn : passNonEmptyString b.name <;>
    cases hd : passNonEmptyString b.description <;>
    cases hp : passPrice b.price <;>
    cases hc : passNonEmptyString b.category <;>
    cases hs : passBoolean b.inStock <;>
    simp

/-- Witness for C5: a payload whose price is negative (first failing rule is
the third one) draws exactly the price message. -/
theorem C5_validator_witness :
    validateProduct
      { name := some (.vStr "Pen"), description := some (.vStr "Blue pen"),
        price := some (.vNum (-5)), category := some (.vStr "office"),
        inStock := some (.vBool true) } =
      some (.validation "Price is required and must be a positive number") :=
  (C5_validator
      { name := some (.vStr "Pen"), description := some (.vStr "Blue pen"),
        price := some (.vNum (-5)), category := some (.vStr "office"),
        inStock := some (.vBool true) }).2.2.2.1 (by decide) (by decide) (by decide)

theorem listContainsSub_iff_infix (needle haystack : List Char) :
    listContainsSub needle haystack = true ↔ needle <:+: haystack := by
  induction haystack with
  | nil =>
    simp [listContainsSub, List.isEmpty_iff]
  | cons c t ih =>
    simp [listContainsSub, List.isPrefixOf_iff_prefix, ih, List.infix_cons_iff]

/-- C6 fails as stated: a present-but-empty `q` (`/api/products/search?q=`)
also draws the 400 validation error, though the parameter is not absent. -/
theorem C6_counterexample :
    searchProducts seedProducts none (some "") =
      .error (.validation "Search query parameter \"q\" is required") ∧
    (some "" : Option String) ≠ none := by
  exact ⟨rfl, by simp⟩

/-- C6 (amended): the search endpoint fails with a 400 validation error iff
`q` is absent or the empty string; for a non-empty `q` it returns exactly
the products whose name or description contains `q` as a case-insensitive
substring. -/
theorem C6_search (store : List Product) (k : Option String) (q? : Option String) :
    ((∃ m, searchProducts store k q? = .error (.validation m) ∧
        (ApiErr.validation m).status = 400) ↔ (q? = none ∨ q? = some "")) ∧
    (∀ q, q? = some q → q ≠ "" →
      ∃ r, searchProducts store k q? = .ok r ∧
        r.query = q ∧ r.count = r.results.length ∧
        ∀ p, p ∈ r.results ↔ p ∈ store ∧
          ((jsToLower q).data <:+: (jsToLower p.name).data ∨
           (jsToLower q).data <:+: (jsToLower p.description).data)) := by
  cases q? with
  | none =>
    refine ⟨⟨fun _ => Or.inl rfl, fun _ => ⟨_, rfl, rfl⟩⟩, ?_⟩
    intro q hq
    exact absurd hq (by simp)
  | some q =>
    by_cases hq : q = ""
    · subst hq
      refine ⟨⟨fun _ => Or.inr rfl, fun _ => ⟨_, rfl, rfl⟩⟩, ?_⟩
      intro q' hq' hne
      exact absurd (by injection hq' with h; exact h.symm) hne
    · have hqb : (q == "") = false := beq_eq_false_iff_ne.mpr hq
      have hok : searchProducts store k (some q) =
          .ok { query := q,
                results := store.filter (fun p =>
                  strIncludes (jsToLower p.name) (jsToLower q) ||
                  strIncludes (jsToLower p.description) (jsToLower q)),
                count := (store.filter (fun p =>
                  strIncludes (jsToLower p.name) (jsToLower q) ||
                  strIncludes (jsToLower p.description) (jsToLower q))).length } := by
        simp [searchProducts, hqb]
      constructor
      · constructor
        · rintro ⟨m, hm, -⟩
          rw [hok] at hm
          exact absurd hm (by simp)
        · rintro (h | h)
          · exact absurd h (by simp)
          · exact absurd h (by simp [hq])
      · intro q' hq' hne
        have hqq : q' = q := by injection hq' with h; exact h.symm
        subst hqq
        refine ⟨_, hok, rfl, rfl, ?_⟩
        intro p
        rw [List.mem_filter]
        simp only [Bool.or_eq_true, strIncludes, listContainsSub_iff_infix]

/-- Witness for C6 on the seed store with `q = "LAPTOP"`. -/
theorem C6_search_witness :
    ∃ r, searchProducts seedProducts none (some "LAPTOP") = .ok r ∧
      r.query = "LAPTOP" ∧ r.count = r.results.length ∧
      ∀ p, p ∈ r.results ↔ p ∈ seedProducts ∧
        ((jsToLower "LAPTOP").data <:+: (jsToLower p.name).data ∨
         (jsToLower "LAPTOP").data <:+: (jsToLower p.description).data) :=
  (C6_search seedProducts none (some "LAPTOP")).2 "LAPTOP" rfl (by decide)

theorem validateProduct_none_pass {b : Payload} (h : validateProduct b = none) :
    passNonEmptyString b.name = true ∧ passNonEmptyString b.description = true ∧
    passPrice b.price = true ∧ passNonEmptyString b.category = true ∧
    passBoolean b.inStock = true := by
  revert h
  simp only [validateProduct, failsNonEmptyString_eq, failsPrice_eq, failsBoolean_eq]
  cases hn : passNonEmptyString b.name <;>
    cases hd : passNonEmptyString b.description <;>
    cases hp : passPrice b.price <;>
    cases hc : passNonEmptyString b.category <;>
    cases hs : passBoolean b.inStock <;>
    simp

theorem passNonEmptyString_shape {v : Option JVal} (h : passNonEmptyString v = true) :
    ∃ s, v = some (.vStr s) ∧ jsTrim s ≠ "" := by
  cases v with
  | none => exact absurd h (by simp [passNonEmptyString])
  | some jv =>
    cases jv with
    | vStr s =>
      refine ⟨s, rfl, ?_⟩
      simpa [passNonEmptyString] using h
    | vNum q => exact absurd h (by simp [passNonEmptyString])
    | vBool bb => exact absurd h (by simp [passNonEmptyString])
    | vNull => exact absurd h (by simp [passNonEmptyString])

theorem passPrice_shape {v : Option JVal} (h : passPrice v = true) :
    ∃ q : ℚ, v = some (.vNum q) ∧ 0 ≤ q := by
  cases v with
  | none => exact absurd h (by simp [passPrice])
  | some jv =>
    cases jv with
    | vStr s => exact absurd h (by simp [passPrice])
    | vNum q =>
      refine ⟨q, rfl, ?_⟩
      simpa [passPrice] using h
    | vBool bb => exact absurd h (by simp [passPrice])
    | vNull => exact absurd h (by simp [passPrice])

theorem passBoolean_shape {v : Option JVal} (h : passBoolean v = true) :
    ∃ bb : Bool, v = some (.vBool bb) := by
  cases v with
  | none => exact absurd h (by simp [passBoolean])
  | some jv =>
    cases jv with
    | vStr s => exact absurd h (by simp [passBoolean])
    | vNum q => exact absurd h (by simp [passBoolean])
    | vBool bb => exact ⟨bb, rfl⟩
    | vNull => exact absurd h (by simp [passBoolean])

/-- C7: a successful authenticated PUT replaces all five mutable fields of
the matched product with the supplied (trimmed) values, keeps its id, and
leaves length and every other position of the store untouched; all five
fields must have been supplied (strict full replace). -/
theorem C7_update_replaces (store : List Product) (id : String) (body : Payload) (i : Nat)
    (hvalid : validateProduct body = none)
    (hfind : store.findIdx? (fun p => p.id == id) = some i) :
    ∃ old upd : Product, store[i]? = some old ∧
      ∃ n d c : String, ∃ q : ℚ, ∃ st : Bool,
        body.name = some (.vStr n) ∧ body.description = some (.vStr d) ∧
        body.category = some (.vStr c) ∧ body.price = some (.vNum q) ∧
        body.inStock = some (.vBool st) ∧
        upd.id = old.id ∧ upd.name = jsTrim n ∧ upd.description = jsTrim d ∧
        upd.price = q ∧ upd.category = jsTrim c ∧ upd.inStock = st ∧
        putProduct store (some apiSecret) id body = (.ok upd, store.set i upd) ∧
        (store.set i upd).length = store.length ∧
        (∀ j : Nat, j ≠ i → (store.set i upd)[j]? = store[j]?) := by
  have hidx := List.findIdx?_eq_some_iff_findIdx_eq.mp hfind
  have hlt : i < store.length := hidx.1
  have hget : store[i]? = some store[i] := List.getElem?_eq_getElem hlt
  obtain ⟨hpn, hpd, hpp, hpc, hps⟩ := validateProduct_none_pass hvalid
  obtain ⟨n, hn, -⟩ := passNonEmptyString_shape hpn
  obtain ⟨d, hd, -⟩ := passNonEmptyString_shape hpd
  obtain ⟨q, hq, -⟩ := passPrice_shape hpp
  obtain ⟨c, hc, -⟩ := passNonEmptyString_shape hpc
  obtain ⟨st, hst⟩ := passBoolean_shape hps
  refine ⟨store[i],
    { id := store[i].id, name := jsTrim n, description := jsTrim d,
      price := q, category := jsTrim c, inStock := st },
    hget, n, d, c, q, st, hn, hd, hc, hq, hst,
    rfl, rfl, rfl, rfl, rfl, rfl, ?_, List.length_set store i _, ?_⟩
  · simp [putProduct, authMiddleware_secret, hvalid, hfind, hget,
      hn, hd, hq, hc, hst, JVal.asString, JVal.asNum, JVal.asBool]
  · intro j hj
    rw [List.getElem?_set]
    rw [if_neg (fun h => hj h.symm)]

/-- Witness for C7: updating product "3" of the seed store with a body whose
string fields carry surrounding whitespace. -/
theorem C7_update_replaces_witness :
    ∃ old upd : Product, seedProducts[2]? = some old ∧
      ∃ n d c : String, ∃ q : ℚ, ∃ st : Bool,
        (Payload.mk (some (.vStr "  Espresso Machine ")) (some (.vStr " 15-bar pump "))
          (some (.vNum 180)) (some (.vStr " kitchen ")) (some (.vBool true))).name =
            some (.vStr n) ∧
        (Payload.mk (some (.vStr "  Espresso Machine ")) (some (.vStr " 15-bar pump "))
          (some (.vNum 180)) (some (.vStr " kitchen ")) (some (.vBool true))).description =
            some (.vStr d) ∧
        (Payload.mk (some (.vStr "  Espresso Machine ")) (some (.vStr " 15-bar pump "))
          (some (.vNum 180)) (some (.vStr " kitchen ")) (some (.vBool true))).category =
            some (.vStr c) ∧
        (Payload.mk (some (.vStr "  Espresso Machine ")) (some (.vStr " 15-bar pump "))
          (some (.vNum 180)) (some (.vStr " kitchen ")) (some (.vBool true))).price =
            some (.vNum q) ∧
        (Payload.mk (some (.vStr "  Espresso Machine ")) (some (.vStr " 15-bar pump "))
          (some (.vNum 180)) (some (.vStr " kitchen ")) (some (.vBool true))).inStock =
            some (.vBool st) ∧
        upd.id = old.id ∧ upd.name = jsTrim n ∧ upd.description = jsTrim d ∧
        upd.price = q ∧ upd.category = jsTrim c ∧ upd.inStock = st ∧
        putProduct seedProducts (some apiSecret) "3"
          (Payload.mk (some (.vStr "  Espresso Machine ")) (some (.vStr " 15-bar pump "))
            (some (.vNum 180)) (some (.vStr " kitchen ")) (some (.vBool true))) =
          (.ok upd, seedProducts.set 2 upd) ∧
        (seedProducts.set 2 upd).length = seedProducts.length ∧
        (∀ j : Nat, j ≠ 2 → (seedProducts.set 2 upd)[j]? = seedProducts[j]?) :=
  C7_update_replaces seedProducts "3"
    (Payload.mk (some (.vStr "  Espresso Machine ")) (some (.vStr " 15-bar pump "))
      (some (.vNum 180)) (some (.vStr " kitchen ")) (some (.vBool true))) 2
    (by decide) (by decide)

theorem foldl_add_eq_sum (l : List ℚ) :
    l.foldl (fun sum price => sum + price) 0 = l.sum :=
  (List.sum_eq_foldl).symm

theorem foldl_min_le_init (l : List ℚ) : ∀ a : ℚ, l.foldl min a ≤ a := by
  induction l with
  | nil => intro a; exact le_refl a
  | cons h t ih => intro a; exact le_trans (ih (min a h)) (min_le_left a h)

theorem foldl_min_le_mem (l : List ℚ) : ∀ a : ℚ, ∀ x ∈ l, l.foldl min a ≤ x := by
  induction l with
  | nil => intro a x hx; exact absurd hx (List.not_mem_nil x)
  | cons h t ih =>
    intro a x hx
    rcases List.mem_cons.mp hx with hxh | hxt
    · subst hxh
      exact le_trans (foldl_min_le_init t (min a x)) (min_le_right a x)
    · exact ih (min a h) x hxt

theorem foldl_min_mem (l : List ℚ) : ∀ a : ℚ, l.foldl min a = a ∨ l.foldl min a ∈ l := by
  induction l with
  | nil => intro a; exact Or.inl rfl
  | cons h t ih =>
    intro a
    rw [List.foldl_cons]
    rcases ih (min a h) with heq | hmem
    · rcases min_choice a h with hc | hc
      · left; rw [heq, hc]
      · right; rw [heq, hc]; exact List.mem_cons_self h t
    · right; exact List.mem_cons_of_mem h hmem

theorem foldl_max_ge_init (l : List ℚ) : ∀ a : ℚ, a ≤ l.foldl max a := by
  induction l with
  | nil => intro a; exact le_refl a
  | cons h t ih => intro a; exact le_trans (le_max_left a h) (ih (max a h))

theorem foldl_max_ge_mem (l : List ℚ) : ∀ a : ℚ, ∀ x ∈ l, x ≤ l.foldl max a := by
  induction l with
  | nil => intro a x hx; exact absurd hx (List.not_mem_nil x)
  | cons h t ih =>
    intro a x hx
    rcases List.mem_cons.mp hx with hxh | hxt
    · subst hxh
      exact le_trans (le_max_right a x) (foldl_max_ge_init t (max a x))
    · exact ih (max a h) x hxt

theorem foldl_max_mem (l : List ℚ) : ∀ a : ℚ, l.foldl max a = a ∨ l.foldl max a ∈ l := by
  induction l with
  | nil => intro a; exact Or.inl rfl
  | cons h t ih =>
    intro a
    rw [List.foldl_cons]
    rcases ih (max a h) with heq | hmem
    · rcases max_choice a h with hc | hc
      · left; rw [heq, hc]
      · right; rw [heq, hc]; exact List.mem_cons_self h t
    · right; exact List.mem_cons_of_mem h hmem

theorem lookup_bumpCategory (m : List (String × Nat)) (c c' : String) :
    (((bumpCategory m c).lookup c').getD 0) =
      ((m.lookup c').getD 0) + (if c' = c then 1 else 0) := by
  induction m with
  | nil =>
    by_cases h : c' = c
    · have hb : (c' == c) = true := beq_iff_eq.mpr h
      simp [bumpCategory, List.lookup, hb, h]
    · have hb : (c' == c) = false := beq_eq_false_iff_ne.mpr h
      simp [bumpCategory, List.lookup, hb, h]
  | cons kv rest ih =>
    by_cases hkv : kv.1 = c
    · have hkvb : (kv.1 == c) = true := beq_iff_eq.mpr hkv
      by_cases hc' : c' = kv.1
      · have hc'b : (c' == kv.1) = true := beq_iff_eq.mpr hc'
        simp [bumpCategory, hkvb, List.lookup, hc'b, hc', hkv]
      · have hc'b : (c' == kv.1) = false := beq_eq_false_iff_ne.mpr hc'
        have hne : c' ≠ c := fun h => hc' (h.trans hkv.symm)
        simp [bumpCategory, hkvb, List.lookup, hc'b, hne]
    · have hkvb : (kv.1 == c) = false := beq_eq_false_iff_ne.mpr hkv
      by_cases hc' : c' = kv.1
      · have hc'b : (c' == kv.1) = true := beq_iff_eq.mpr hc'
        have hne : c' ≠ c := fun h => hkv ((hc'.symm.trans h) ▸ rfl)
        simp [bumpCategory, hkvb, List.lookup, hc'b, hne]
      · have hc'b : (c' == kv.1) = false := beq_eq_false_iff_ne.mpr hc'
        simp [bumpCategory, hkvb, List.lookup, hc'b, ih]

theorem lookup_foldl_bump (store : List Product) :
    ∀ (m : List (String × Nat)) (c : String),
      (((store.foldl (fun acc p => bumpCategory acc p.category) m).lookup c).getD 0) =
        ((m.lookup c).getD 0) + (store.filter (fun p => p.category == c)).length := by
  induction store with
  | nil => intro m c; simp
  | cons p t ih =>
    intro m c
    rw [List.foldl_cons, ih, lookup_bumpCategory, List.filter_cons]
    by_cases h : p.category = c
    · have hb : (p.category == c) = true := beq_iff_eq.mpr h
      simp [hb, h.symm]
      omega
    · have hb : (p.category == c) = false := beq_eq_false_iff_ne.mpr h
      have hne : c ≠ p.category := fun hcc => h hcc.symm
      simp [hb, hne]

theorem categoriesOf_count (store : List Product) (c : String) :
    (((categoriesOf store).lookup c).getD 0) =
      (store.filter (fun p => p.category == c)).length := by
  have h := lookup_foldl_bump store [] c
  simpa [categoriesOf] using h


theorem statsOf_cons (p : Product) (t : List Product) (k : Option String) :
    statsOf (p :: t) k =
      { totalProducts := (p :: t).length,
        inStock := ((p :: t).filter (fun x => x.inStock)).length,
        outOfStock := ((p :: t).filter (fun x => !x.inStock)).length,
        categories := categoriesOf (p :: t),
        averagePrice :=
          (((p :: t).map (fun x => x.price)).foldl (fun sum price => sum + price) 0) /
            ((((p :: t).map (fun x => x.price)).length : ℚ)),
        priceRange := { min := jsMathMin ((p :: t).map (fun x => x.price)),
                        max := jsMathMax ((p :: t).map (fun x => x.price)) } } := by
  simp only [statsOf]
  rw [if_pos (by simp : (p :: t).length > 0)]

/-- C8: stats counts the store size, the inStock/outOfStock split (their sum
is the size), and the per-category counts; the average price is the price
sum over the count (0 for an empty store); the price range brackets every
stored price and is attained; on the 5-product seed data the numbers are
totalProducts 5, inStock 4, outOfStock 1, averagePrice 510, range 50–1200. -/
theorem C8_stats (store : List Product) (k : Option String) :
    (statsOf store k).totalProducts = store.length ∧
    (statsOf store k).inStock = (store.filter (fun p => p.inStock)).length ∧
    (statsOf store k).outOfStock = (store.filter (fun p => !p.inStock)).length ∧
    (statsOf store k).inStock + (statsOf store k).outOfStock = store.length ∧
    (∀ c : String, (((statsOf store k).categories.lookup c).getD 0) =
      (store.filter (fun p => p.category == c)).length) ∧
    (store = [] → (statsOf store k).averagePrice = 0) ∧
    (store ≠ [] → (statsOf store k).averagePrice =
      (store.map Product.price).sum / (store.length : ℚ)) ∧
    (∀ p ∈ store, (statsOf store k).priceRange.min ≤ p.price ∧
      p.price ≤ (statsOf store k).priceRange.max) ∧
    (store ≠ [] → ((statsOf store k).priceRange.min ∈ store.map Product.price ∧
      (statsOf store k).priceRange.max ∈ store.map Product.price)) ∧
    (statsOf seedProducts none).totalProducts = 5 ∧
    (statsOf seedProducts none).inStock = 4 ∧
    (statsOf seedProducts none).outOfStock = 1 ∧
    (statsOf seedProducts none).averagePrice = 510 ∧
    (statsOf seedProducts none).priceRange.min = 50 ∧
    (statsOf seedProducts none).priceRange.max = 1200 := by
  have hminle : ∀ (h' : ℚ) (rest : List ℚ), ∀ x ∈ h' :: rest,
      jsMathMin (h' :: rest) ≤ x := by
    intro h' rest x hx
    rcases List.mem_cons.mp hx with h1 | h1
    · subst h1
      exact foldl_min_le_init rest x
    · exact foldl_min_le_mem rest h' x h1
  have hmaxge : ∀ (h' : ℚ) (rest : List ℚ), ∀ x ∈ h' :: rest,
      x ≤ jsMathMax (h' :: rest) := by
    intro h' rest x hx
    rcases List.mem_cons.mp hx with h1 | h1
    · subst h1
      exact foldl_max_ge_init rest x
    · exact foldl_max_ge_mem rest h' x h1
  have hminmem : ∀ (h' : ℚ) (rest : List ℚ), jsMathMin (h' :: rest) ∈ h' :: rest := by
    intro h' rest
    rcases foldl_min_mem rest h' with h1 | h1
    · rw [show jsMathMin (h' :: rest) = rest.foldl min h' from rfl, h1]
      exact List.mem_cons_self h' rest
    · rw [show jsMathMin (h' :: rest) = rest.foldl min h' from rfl]
      exact List.mem_cons_of_mem h' h1
  have hmaxmem : ∀ (h' : ℚ) (rest : List ℚ), jsMathMax (h' :: rest) ∈ h' :: rest := by
    intro h' rest
    rcases foldl_max_mem rest h' with h1 | h1
    · rw [show jsMathMax (h' :: rest) = rest.foldl max h' from rfl, h1]
      exact List.mem_cons_self h' rest
    · rw [show jsMathMax (h' :: rest) = rest.foldl max h' from rfl]
      exact List.mem_cons_of_mem h' h1
  have hseed1 : (statsOf seedProducts none).totalProducts = 5 := by
    simp only [seedProducts]
    rw [statsOf_cons]
    decide
  have hseed2 : (statsOf seedProducts none).inStock = 4 := by
    simp only [seedProducts]
    rw [statsOf_cons]
    decide
  have hseed3 : (statsOf seedProducts none).outOfStock = 1 := by
    simp only [seedProducts]
    rw [statsOf_cons]
    decide
  have hseed4 : (statsOf seedProducts none).averagePrice = 510 := by
    simp only [seedProducts]
    rw [statsOf_cons]
    norm_num [List.map, List.foldl]
  have hseed5 : (statsOf seedProducts none).priceRange.min = 50 := by
    simp only [seedProducts]
    rw [statsOf_cons]
    norm_num [List.map, jsMathMin, List.foldl, min_def]
  have hseed6 : (statsOf seedProducts none).priceRange.max = 1200 := by
    simp only [seedProducts]
    rw [statsOf_cons]
    norm_num [List.map, jsMathMax, List.foldl, max_def]
  cases store with
  | nil =>
    refine ⟨rfl, rfl, rfl, rfl, ?_, fun _ => rfl, fun h => absurd rfl h, ?_,
      fun h => absurd rfl h, hseed1, hseed2, hseed3, hseed4, hseed5, hseed6⟩
    · intro c
      simp [statsOf, categoriesOf]
    · intro p hp
      exact absurd hp (List.not_mem_nil p)
  | cons p t =>
    rw [statsOf_cons]
    refine ⟨rfl, rfl, rfl, ?_, ?_, ?_, ?_, ?_, ?_,
      hseed1, hseed2, hseed3, hseed4, hseed5, hseed6⟩
    · exact (List.length_eq_length_filter_add _).symm
    · intro c
      exact categoriesOf_count (p :: t) c
    · intro h
      exact absurd h (by simp)
    · intro _
      rw [foldl_add_eq_sum, List.length_map]
    · intro p' hp'
      dsimp only
      simp only [List.map_cons]
      have hp'' : p'.price ∈ p.price :: t.map (fun x => x.price) := by
        rcases List.mem_cons.mp hp' with h1 | h1
        · subst h1
          exact List.mem_cons_self _ _
        · exact List.mem_cons_of_mem _ (List.mem_map_of_mem (fun x => x.price) h1)
      exact ⟨hminle p.price (t.map (fun x => x.price)) p'.price hp'',
        hmaxge p.price (t.map (fun x => x.price)) p'.price hp''⟩
    · intro _
      dsimp only
      simp only [List.map_cons]
      exact ⟨hminmem p.price (t.map (fun x => x.price)),
        hmaxmem p.price (t.map (fun x => x.price))⟩

/-- Witness for C8 at the seed store. -/
theorem C8_stats_witness :
    (statsOf seedProducts none).totalProducts = seedProducts.length ∧
    ((statsOf seedProducts none).categories.lookup "electronics").getD 0 =
      (seedProducts.filter (fun p => p.category == "electronics")).length ∧
    (statsOf seedProducts none).averagePrice =
      (seedProducts.map Product.price).sum / (seedProducts.length : ℚ) ∧
    (statsOf seedProducts none).averagePrice = 510 :=
  ⟨(C8_stats seedProducts none).1,
   (C8_stats seedProducts none).2.2.2.2.1 "electronics",
   (C8_stats seedProducts none).2.2.2.2.2.2.1 (by decide),
   (C8_stats seedProducts none).2.2.2.2.2.2.2.2.2.2.2.2.1⟩

theorem postProducts_store (store : List Product) (k : Option String)
    (b : Payload) (nid : String) :
    (postProducts store k b nid).2 = store ∨
    ∃ np : Product, np.id = nid ∧ (postProducts store k b nid).2 = store ++ [np] := by
  cases h1 : authMiddleware k with
  | some e => left; simp [postProducts, h1]
  | none =>
    cases h2 : validateProduct b with
    | some e => left; simp [postProducts, h1, h2]
    | none =>
      right
      exact ⟨{ id := nid, name := jsTrim (JVal.asString b.name),
               description := jsTrim (JVal.asString b.description),
               price := JVal.asNum b.price,
               category := jsTrim (JVal.asString b.category),
               inStock := JVal.asBool b.inStock }, rfl,
             by simp [postProducts, h1, h2]⟩

theorem list_set_of_getElem? {α : Type} (l : List α) (i : Nat) (a : α)
    (h : l[i]? = some a) : l.set i a = l := by
  have hlt : i < l.length := by
    by_contra hge
    rw [List.getElem?_eq_none (Nat.le_of_not_lt hge)] at h
    exact absurd h (by simp)
  apply List.ext_getElem?
  intro j
  rw [List.getElem?_set]
  by_cases hij : i = j
  · subst hij
    rw [if_pos rfl, if_pos hlt, h]
  · rw [if_neg hij]

theorem putProduct_ids (store : List Product) (k : Option String)
    (id : String) (b : Payload) :
    (putProduct store k id b).2.map Product.id = store.map Product.id := by
  cases h1 : authMiddleware k with
  | some e => simp [putProduct, h1]
  | none =>
    cases h2 : validateProduct b with
    | some e => simp [putProduct, h1, h2]
    | none =>
      cases h3 : store.findIdx? (fun p => p.id == id) with
      | none => simp [putProduct, h1, h2, h3]
      | some i =>
        cases h4 : store[i]? with
        | none => simp [putProduct, h1, h2, h3, h4]
        | some old =>
          have hmain : (putProduct store k id b).2 =
              store.set i { old with
                name := jsTrim (JVal.asString b.name),
                description := jsTrim (JVal.asString b.description),
                price := JVal.asNum b.price,
                category := jsTrim (JVal.asString b.category),
                inStock := JVal.asBool b.inStock } := by
            simp [putProduct, h1, h2, h3, h4]
          rw [hmain, List.map_set]
          have hid : (store.map Product.id)[i]? = some old.id := by
            rw [List.getElem?_map, h4]
            rfl
          exact list_set_of_getElem? _ i _ hid

theorem deleteProduct_ids_sublist (store : List Product) (k : Option String)
    (id : String) :
    ((deleteProduct store k id).2.map Product.id).Sublist (store.map Product.id) := by
  cases h1 : authMiddleware k with
  | some e => simp [deleteProduct, h1]
  | none =>
    cases h3 : store.findIdx? (fun p => p.id == id) with
    | none => simp [deleteProduct, h1, h3]
    | some i =>
      cases h4 : store[i]? with
      | none => simp [deleteProduct, h1, h3, h4]
      | some deleted =>
        have hmain : (deleteProduct store k id).2 = store.eraseIdx i := by
          simp [deleteProduct, h1, h3, h4]
        rw [hmain]
        exact (List.eraseIdx_sublist store i).map Product.id

theorem applyOp_nodup {store : List Product} {op : Op}
    (hnd : (store.map Product.id).Nodup) (hf : freshFor store op = true) :
    ((applyOp store op).map Product.id).Nodup := by
  cases op with
  | create k b nid =>
    rcases postProducts_store store k b nid with h | ⟨np, hnp, h⟩
    · rw [show applyOp store (.create k b nid) = (postProducts store k b nid).2 from rfl, h]
      exact hnd
    · rw [show applyOp store (.create k b nid) = (postProducts store k b nid).2 from rfl, h,
        List.map_append]
      have hfresh : nid ∉ store.map Product.id := by
        simpa [freshFor] using hf
      simp only [List.map_cons, List.map_nil, hnp]
      rw [List.nodup_append]
      refine ⟨hnd, List.nodup_singleton nid, ?_⟩
      intro x hx hx1
      rw [List.mem_singleton] at hx1
      subst hx1
      exact hfresh hx
  | update k id b =>
    rw [show applyOp store (.update k id b) = (putProduct store k id b).2 from rfl,
      putProduct_ids]
    exact hnd
  | delete k id =>
    exact (deleteProduct_ids_sublist store k id).nodup hnd

/-- C9: starting from the seed data, any sequence of create / update /
delete requests preserves uniqueness of product ids, provided each create's
generated uuid is fresh for the store it lands in (update keeps every id,
delete only removes). -/
theorem C9_ids_unique (ops : List Op) (h : freshAlong seedProducts ops = true) :
    ((runOps seedProducts ops).map Product.id).Nodup := by
  have main : ∀ (ops' : List Op) (store : List Product),
      (store.map Product.id).Nodup → freshAlong store ops' = true →
      ((runOps store ops').map Product.id).Nodup := by
    intro ops'
    induction ops' with
    | nil =>
      intro store hnd _
      exact hnd
    | cons op rest ih =>
      intro store hnd hf
      rw [freshAlong, Bool.and_eq_true] at hf
      exact ih (applyOp store op) (applyOp_nodup hnd hf.1) hf.2
  have hseed : (seedProducts.map Product.id).Nodup := by decide
  exact main ops seedProducts hseed h

/-- Witness for C9: create a product with fresh id "6", delete product "2",
then update product "1". -/
theorem C9_ids_unique_witness :
    ((runOps seedProducts
        [Op.create (some apiSecret)
          (Payload.mk (some (.vStr "Tablet")) (some (.vStr "10-inch tablet"))
            (some (.vNum 350)) (some (.vStr "electronics")) (some (.vBool true))) "6",
         Op.delete (some apiSecret) "2",
         Op.update (some apiSecret) "1"
          (Payload.mk (some (.vStr "Laptop Pro")) (some (.vStr "32GB RAM laptop"))
            (some (.vNum 2000)) (some (.vStr "electronics")) (some (.vBool true)))]).map
      Product.id).Nodup :=
  C9_ids_unique _ (by decide)

/-- C10: an accepted create stores (and returns) the supplied name,
description and category trimmed of surrounding whitespace and the supplied
price and inStock unchanged; a body whose name trims to the empty string is
rejected by validation with a 400 before anything is stored.
(The update path stores the same trimmed values, see the C7 theorem.) -/
theorem C10_trimming (store : List Product) (body : Payload) (nid : String)
    (hvalid : validateProduct body = none) :
    (∃ n d c : String, ∃ q : ℚ, ∃ st : Bool, ∃ P : Product,
      body.name = some (.vStr n) ∧ body.description = some (.vStr d) ∧
      body.category = some (.vStr c) ∧ body.price = some (.vNum q) ∧
      body.inStock = some (.vBool st) ∧
      postProducts store (some apiSecret) body nid = (.ok P, store ++ [P]) ∧
      P.id = nid ∧ P.name = jsTrim n ∧ P.description = jsTrim d ∧
      P.price = q ∧ P.category = jsTrim c ∧ P.inStock = st) ∧
    (∀ b2 : Payload, ∀ s : String, b2.name = some (.vStr s) → jsTrim s = "" →
      ∃ m, postProducts store (some apiSecret) b2 nid =
        (.error (.validation m), store) ∧ (ApiErr.validation m).status = 400) := by
  constructor
  · obtain ⟨hpn, hpd, hpp, hpc, hps⟩ := validateProduct_none_pass hvalid
    obtain ⟨n, hn, -⟩ := passNonEmptyString_shape hpn
    obtain ⟨d, hd, -⟩ := passNonEmptyString_shape hpd
    obtain ⟨q, hq, -⟩ := passPrice_shape hpp
    obtain ⟨c, hc, -⟩ := passNonEmptyString_shape hpc
    obtain ⟨st, hst⟩ := passBoolean_shape hps
    refine ⟨n, d, c, q, st,
      { id := nid, name := jsTrim n, description := jsTrim d,
        price := q, category := jsTrim c, inStock := st },
      hn, hd, hc, hq, hst, ?_, rfl, rfl, rfl, rfl, rfl, rfl⟩
    simp [postProducts, authMiddleware_secret, hvalid,
      hn, hd, hq, hc, hst, JVal.asString, JVal.asNum, JVal.asBool]
  · intro b2 s hname htrim
    have hfail : failsNonEmptyString b2.name = true := by
      rw [hname]
      simp [failsNonEmptyString, jsFalsy, htrim]
    have hv : validateProduct b2 =
        some (.validation "Name is required and must be a non-empty string") := by
      simp [validateProduct, hfail]
    exact ⟨"Name is required and must be a non-empty string",
      by simp [postProducts, authMiddleware_secret, hv], rfl⟩

/-- Witness for C10: creating with whitespace-padded fields on the seed
store, and attempting to create with an all-whitespace name. -/
theorem C10_trimming_witness :
    (∃ n d c : String, ∃ q : ℚ, ∃ st : Bool, ∃ P : Product,
      (Payload.mk (some (.vStr " Desk Lamp ")) (some (.vStr "  LED lamp "))
        (some (.vNum 40)) (some (.vStr " furniture ")) (some (.vBool true))).name =
          some (.vStr n) ∧
      (Payload.mk (some (.vStr " Desk Lamp ")) (some (.vStr "  LED lamp "))
        (some (.vNum 40)) (some (.vStr " furniture ")) (some (.vBool true))).description =
          some (.vStr d) ∧
      (Payload.mk (some (.vStr " Desk Lamp ")) (some (.vStr "  LED lamp "))
        (some (.vNum 40)) (some (.vStr " furniture ")) (some (.vBool true))).category =
          some (.vStr c) ∧
      (Payload.mk (some (.vStr " Desk Lamp ")) (some (.vStr "  LED lamp "))
        (some (.vNum 40)) (some (.vStr " furniture ")) (some (.vBool true))).price =
          some (.vNum q) ∧
      (Payload.mk (some (.vStr " Desk Lamp ")) (some (.vStr "  LED lamp "))
        (some (.vNum 40)) (some (.vStr " furniture ")) (some (.vBool true))).inStock =
          some (.vBool st) ∧
      postProducts seedProducts (some apiSecret)
        (Payload.mk (some (.vStr " Desk Lamp ")) (some (.vStr "  LED lamp "))
          (some (.vNum 40)) (some (.vStr " furniture ")) (some (.vBool true))) "7" =
        (.ok P, seedProducts ++ [P]) ∧
      P.id = "7" ∧ P.name = jsTrim n ∧ P.description = jsTrim d ∧
      P.price = q ∧ P.category = jsTrim c ∧ P.inStock = st) ∧
    (∃ m, postProducts seedProducts (some apiSecret)
        (Payload.mk (some (.vStr "   ")) (some (.vStr "x")) (some (.vNum 1))
          (some (.vStr "y")) (some (.vBool true))) "7" =
        (.error (.validation m), seedProducts) ∧ (ApiErr.validation m).status = 400) :=
  ⟨(C10_trimming seedProducts
      (Payload.mk (some (.vStr " Desk Lamp ")) (some (.vStr "  LED lamp "))
        (some (.vNum 40)) (some (.vStr " furniture ")) (some (.vBool true))) "7"
      (by decide)).1,
   (C10_trimming seedProducts
      (Payload.mk (some (.vStr " Desk Lamp ")) (some (.vStr "  LED lamp "))
        (some (.vNum 40)) (some (.vStr " furniture ")) (some (.vBool true))) "7"
      (by decide)).2
     (Payload.mk (some (.vStr "   ")) (some (.vStr "x")) (some (.vNum 1))
       (some (.vStr "y")) (some (.vBool true))) "   " rfl (by decide)⟩
